import Mathlib

/-!
Verification of the mailbox data/query layer, spam classifier and analytics
aggregation of the single-file Tkinter email application (src/main.py).

The Python code is shallowly embedded:
* SQLite tables become Lean lists (`users`, `emails`); `SELECT ... WHERE`
  becomes `List.filter`, row order is insertion order (SQLite rowid order).
* A timestamp produced by `datetime.now().isoformat()` is represented by its
  calendar date, encoded as an absolute month index (`TS.month`, counting
  months from year 0) together with a 0-based day offset inside that month
  (`TS.day`).  For such zero-padded ISO-8601 strings, lexicographic string
  comparison (used by the SQL queries) agrees with chronological comparison,
  so `timestamp >= d` for a date `d` is embedded as `absDay ts >= absDay d`,
  `SUBSTR(timestamp,1,10)` (the date part) as `absDay ts`, and
  `SUBSTR(timestamp,1,7)` (the month part) as `ts.month`.
* Python's stable `list.sort(key=...)` is embedded as `List.mergeSort`,
  which is a stable sort.
* `str.lower` and `str.strip` are embedded as `lower` and `strip` below.
-/

namespace BharatMail

/-- Models Python `str.lower` (the code only ever lower-cases ASCII text). -/
def lower (s : String) : String := String.mk (s.data.map Char.toLower)

/-- Models Python `str.strip`: drop whitespace from both ends. -/
def strip (s : String) : String :=
  String.mk (((s.data.dropWhile Char.isWhitespace).reverse.dropWhile
    Char.isWhitespace).reverse)

/-- Models the Python substring test `needle in hay`. -/
def strContains (hay needle : String) : Bool := decide (needle.data <:+: hay.data)

/-- The fixed keyword list of `EmailApp.detect_spam` (src/main.py lines 197-200). -/
def spam_keywords : List String :=
  ["lottery", "win money", "prize", "free offer", "urgent",
   "cash", "credit", "loan", "congratulations", "claim now", "click here"]

/-- `EmailApp.detect_spam` (src/main.py lines 196-205): build
`text = f"{subject} {body}".lower()` and return `True` as soon as some keyword
occurs in `text` as a substring, else `False`.  The early-returning `for` loop
is `List.any`. -/
def detect_spam (subject body : String) : Bool :=
  spam_keywords.any (fun w => strContains (lower (subject ++ " " ++ body)) w)

/-- C1 (counterexample): the claim as stated is false at subject `"win"`,
body `"money"`: the code flags this pair as spam (the keyword `"win money"`
occurs in the space-joined text `"win money"`), but the lower-cased plain
concatenation `"winmoney"` contains no keyword of the fixed set. -/
theorem detect_spam_claim_cex :
    ¬ (detect_spam "win" "money" = true ↔
        ∃ w ∈ spam_keywords, w.data <:+: (lower ("win" ++ "money")).data) := by
  decide

/-- C1 (amended): for every subject and body, `detect_spam` returns true iff
the lower-cased concatenation of the subject, a single space, and the body
contains at least one keyword of the fixed set as a substring. -/
theorem detect_spam_amended (subject body : String) :
    detect_spam subject body = true ↔
      ∃ w ∈ spam_keywords, w.data <:+: (lower (subject ++ " " ++ body)).data := by
  simp [detect_spam, strContains, List.any_eq_true]

/-! ## Data model -/

/-- A row of the `users` table: `users(username TEXT PRIMARY KEY, password TEXT)`. -/
structure Account where
  username : String
  password : String
  deriving DecidableEq

/-- The calendar date of a `datetime.now().isoformat()` timestamp, encoded as
an absolute month index (months counted from year 0, so January of year `y`
has index `12 * y`) and a 0-based day offset within that month. -/
structure TS where
  month : Nat
  day : Nat
  deriving DecidableEq

/-- A row of the `emails` table: `emails(id INTEGER PRIMARY KEY AUTOINCREMENT,
recipient, sender, subject, body, attachment TEXT, timestamp TEXT,
is_spam INTEGER DEFAULT 0)`.  The attachment column is NULL (`none`) or
base64 text; the timestamp is represented by its date (see `TS`). -/
structure Message where
  id : Nat
  recipient : String
  sender : String
  subject : String
  body : String
  attachment : Option String
  ts : TS
  is_spam : Bool
  deriving DecidableEq

/-- The whole SQLite database: both tables plus the AUTOINCREMENT counter. -/
structure Store where
  users : List Account
  emails : List Message
  nextId : Nat
  deriving DecidableEq

/-! ## Calendar arithmetic

`monthStart m` is the absolute day number (days counted from 1 January of
year 0) of the first day of month `m`; it is the embedding of the ISO date
`YYYY-MM-01` of that month, and `absDay` embeds a full date. -/

/-- Gregorian leap-year rule (as implemented by Python's `datetime.date`). -/
def isLeap (y : Nat) : Bool := (y % 4 == 0 && y % 100 != 0) || y % 400 == 0

/-- Number of days of the month with absolute index `m`
(year `m / 12`, 0-based month-of-year `m % 12`). -/
def daysInMonth (m : Nat) : Nat :=
  match m % 12 with
  | 0 => 31
  | 1 => if isLeap (m / 12) then 29 else 28
  | 2 => 31
  | 3 => 30
  | 4 => 31
  | 5 => 30
  | 6 => 31
  | 7 => 31
  | 8 => 30
  | 9 => 31
  | 10 => 30
  | _ => 31

/-- Absolute day number of the first day of month `m`. -/
def monthStart : Nat → Nat
  | 0 => 0
  | m + 1 => monthStart m + daysInMonth m

/-- Absolute day number of a date. -/
def absDay (t : TS) : Nat := monthStart t.month + t.day

theorem daysInMonth_le (m : Nat) : daysInMonth m ≤ 31 := by
  unfold daysInMonth
  split
  case _ => omega
  case _ => split <;> omega
  all_goals omega

theorem monthStart_mono {a b : Nat} (h : a ≤ b) : monthStart a ≤ monthStart b := by
  induction h with
  | refl => exact Nat.le_refl _
  | step h ih =>
      refine Nat.le_trans ih ?_
      simp only [monthStart]
      omega

theorem monthStart_add_le (k : Nat) : ∀ j, monthStart (k + j) ≤ monthStart k + 31 * j := by
  intro j
  induction j with
  | zero => simp
  | succ n ih =>
      have hd := daysInMonth_le (k + n)
      have : monthStart (k + (n + 1)) = monthStart (k + n) + daysInMonth (k + n) := rfl
      omega

/-! ## Folder queries (`EmailApp.setup_mail_tab.refresh`, src/main.py 381-392) -/

/-- Inbox query: `SELECT ... FROM emails WHERE recipient=?` (line 386). -/
def inboxQuery (user : String) (emails : List Message) : List Message :=
  emails.filter (fun m => m.recipient == user)

/-- Spam query: `SELECT ... FROM emails WHERE recipient=? AND is_spam=1` (line 382). -/
def spamQuery (user : String) (emails : List Message) : List Message :=
  emails.filter (fun m => m.recipient == user && m.is_spam)

/-- Sent query: `SELECT ... FROM emails WHERE sender=?` (line 389). -/
def sentQuery (user : String) (emails : List Message) : List Message :=
  emails.filter (fun m => m.sender == user)

/-- C2: for every user and message store, the Inbox query returns exactly the
messages whose recipient is the current user regardless of `is_spam`, the
Spam query returns exactly the subset of those with `is_spam = true`, and the
Sent query returns exactly the messages whose sender is the current user. -/
theorem folder_queries_spec (user : String) (emails : List Message) :
    (∀ m : Message, m ∈ inboxQuery user emails ↔ m ∈ emails ∧ m.recipient = user) ∧
    (∀ m : Message, m ∈ spamQuery user emails ↔
        m ∈ emails ∧ m.recipient = user ∧ m.is_spam = true) ∧
    spamQuery user emails = (inboxQuery user emails).filter (fun m => m.is_spam) ∧
    (∀ m : Message, m ∈ sentQuery user emails ↔ m ∈ emails ∧ m.sender = user) := by
  refine ⟨?_, ?_, ?_, ?_⟩
  · intro m
    simp [inboxQuery, List.mem_filter]
  · intro m
    simp [spamQuery, List.mem_filter, and_assoc]
  · rw [spamQuery, inboxQuery, List.filter_filter]
    apply List.filter_congr
    intro m _
    exact (Bool.and_comm _ _).symm
  · intro m
    simp [sentQuery, List.mem_filter]

/-! ## Registration (`EmailApp.register.handle_reg`, src/main.py 168-181) -/

/-- Error taxonomy for registration: the `"Username and password required"`
notice and the `sqlite3.IntegrityError` → `"User already exists!"` notice. -/
inductive RegError where
  | invalidInput
  | duplicateAccount
  deriving DecidableEq

/-- `EmailApp.register.handle_reg`: reject when username or password is empty
(Python truthiness `if not username or not password`), then `INSERT INTO users`,
which raises `IntegrityError` exactly when the primary key `username` is
already present.  On success the row is appended. -/
def handle_reg (users : List Account) (username password : String) :
    Except RegError (List Account) :=
  if username == "" || password == "" then .error .invalidInput
  else if users.any (fun u => u.username == username) then .error .duplicateAccount
  else .ok (users ++ [{ username := username, password := password }])

/-- C10: registration rejects an empty password for every username and every
account table: the handler reports the invalid-input error and, the handler
returning an error, no account row is inserted. -/
theorem handle_reg_empty_password (users : List Account) (username : String) :
    handle_reg users username "" = Except.error RegError.invalidInput := by
  simp [handle_reg]

/-! ## Mark spam (`EmailApp.mark_as_spam`, src/main.py 477-482) -/

/-- Error taxonomy named by the spec for `markSpam`. -/
inductive MarkError where
  | notFound
  deriving DecidableEq

/-- Effect of `UPDATE emails SET is_spam=1 WHERE id=?` on the email table:
every row whose id matches gets `is_spam = 1`; all other rows are unchanged.
A missing id matches zero rows and the table is unchanged. -/
def markSpamUpdate (emails : List Message) (id : Nat) : List Message :=
  emails.map (fun m => if m.id == id then { m with is_spam := true } else m)

/-- `EmailApp.mark_as_spam`: run the UPDATE, commit, and show the success
notice `"Email moved to Spam folder"`.  The source contains no existence
check and no error path, so the result is always `ok`; the spec's `NotFound`
error is never produced. -/
def mark_as_spam (emails : List Message) (id : Nat) : Except MarkError (List Message) :=
  .ok (markSpamUpdate emails id)

/-- C5 (counterexample): on the empty email table, id 1 is not present, yet
`mark_as_spam` does not fail with NotFound — it reports success. -/
theorem mark_as_spam_claim_cex :
    (∀ m ∈ ([] : List Message), m.id ≠ 1) ∧
    mark_as_spam [] 1 ≠ Except.error MarkError.notFound := by
  constructor
  · simp
  · simp [mark_as_spam]

/-- C5 (amended): `mark_as_spam` succeeds for every id, present or not: it
never reports NotFound; on ids matching no row it is a no-op on the email
table; and every row whose id matches ends with `is_spam = true`. -/
theorem mark_as_spam_amended (emails : List Message) (id : Nat) :
    mark_as_spam emails id = Except.ok (markSpamUpdate emails id) ∧
    ((∀ m ∈ emails, m.id ≠ id) → markSpamUpdate emails id = emails) ∧
    (∀ m ∈ markSpamUpdate emails id, m.id = id → m.is_spam = true) := by
  refine ⟨rfl, ?_, ?_⟩
  · intro h
    have : ∀ m ∈ emails,
        (if m.id == id then { m with is_spam := true } else m) = m := by
      intro m hm
      simp [h m hm]
    rw [markSpamUpdate, List.map_congr_left this]
    simp
  · intro m hm hid
    rcases List.mem_map.1 hm with ⟨a, ha, rfl⟩
    by_cases h : a.id == id
    · simp [h]
    · simp [h] at hid ⊢
      simp [hid] at h

/-- C5 (amended, witness): at the concrete empty table and id 1 the no-op
case applies. -/
theorem mark_as_spam_amended_witness :
    (∀ m ∈ ([] : List Message), m.id ≠ 1) ∧ markSpamUpdate [] 1 = [] :=
  ⟨by simp, (mark_as_spam_amended [] 1).2.1 (by simp)⟩

/-- C7: for every id present in the table, after `markSpamUpdate` the matching
message exists with `is_spam = true`; applying the update a second time
changes nothing (so the flag stays true); and the second call to
`mark_as_spam` is a success, not an error. -/
theorem markSpam_idempotent (emails : List Message) (id : Nat)
    (h : ∃ m ∈ emails, m.id = id) :
    (∃ m ∈ markSpamUpdate emails id, m.id = id ∧ m.is_spam = true) ∧
    markSpamUpdate (markSpamUpdate emails id) id = markSpamUpdate emails id ∧
    mark_as_spam (markSpamUpdate emails id) id =
      Except.ok (markSpamUpdate emails id) := by
  have hidem : markSpamUpdate (markSpamUpdate emails id) id
      = markSpamUpdate emails id := by
    rw [markSpamUpdate, markSpamUpdate, List.map_map]
    apply List.map_congr_left
    intro a _
    simp only [Function.comp]
    by_cases hc : a.id == id
    · have hc2 : (({ a with is_spam := true } : Message).id == id) = true := hc
      rw [if_pos hc, if_pos hc2]
    · rw [if_neg hc, if_neg hc]
  refine ⟨?_, hidem, ?_⟩
  · rcases h with ⟨m, hm, hid⟩
    refine ⟨{ m with is_spam := true }, ?_, hid, rfl⟩
    have := List.mem_map_of_mem
      (fun m => if m.id == id then { m with is_spam := true } else m) hm
    simpa [markSpamUpdate, hid] using this
  · rw [mark_as_spam, hidem]

/-- A concrete one-row email table used to witness claims with hypotheses. -/
def demoMsg : Message :=
  { id := 1, recipient := "bob", sender := "alice", subject := "hi",
    body := "yo", attachment := none, ts := ⟨0, 0⟩, is_spam := false }

/-- C7 (witness): the concrete one-row table containing id 1. -/
theorem markSpam_idempotent_witness :
    (∃ m ∈ [demoMsg], m.id = 1) ∧
    (∃ m ∈ markSpamUpdate [demoMsg] 1, m.id = 1 ∧ m.is_spam = true) :=
  ⟨by decide, (markSpam_idempotent [demoMsg] 1 (by decide)).1⟩

/-! ## Compose / send (`EmailApp.send_email.handle_send`, src/main.py 302-326) -/

/-- Error taxonomy for sending: the `"All fields are required!"` notice
(`InvalidInput`) and the `"Recipient not found!"` notice (`UnknownRecipient`). -/
inductive SendError where
  | invalidInput
  | unknownRecipient
  deriving DecidableEq

/-- Builds the email row of the INSERT statement (field order as in the
`emails` table). -/
def mkMessage (id : Nat) (recipient sender subject body : String)
    (attachment : Option String) (ts : TS) (is_spam : Bool) : Message :=
  ⟨id, recipient, sender, subject, body, attachment, ts, is_spam⟩

/-- `INSERT INTO emails ... + conn.commit()`: append the row and advance the
AUTOINCREMENT counter. -/
def insertRow (st : Store) (m : Message) : Store :=
  ⟨st.users, st.emails ++ [m], st.nextId + 1⟩

/-- `EmailApp.send_email.handle_send`: strip the three text fields, reject
with `"All fields are required!"` if any stripped field is empty (checked
first), then reject with `"Recipient not found!"` if `SELECT * FROM users
WHERE username=?` finds no row, and otherwise insert the email row with
`is_spam` computed by `detect_spam` in the same INSERT.  `ts` stands for the
`datetime.now()` timestamp and `st.nextId` for the AUTOINCREMENT id.  An
error result leaves the store untouched (no row is inserted). -/
def handle_send (st : Store) (sender recipientRaw subjectRaw bodyRaw : String)
    (attachment : Option String) (ts : TS) : Except SendError Store :=
  let recipient := strip recipientRaw
  let subject := strip subjectRaw
  let body := strip bodyRaw
  if recipient == "" || subject == "" || body == "" then .error .invalidInput
  else if !(st.users.any (fun u => u.username == recipient)) then
    .error .unknownRecipient
  else .ok (insertRow st
    (mkMessage st.nextId recipient sender subject body attachment ts
      (detect_spam subject body)))

/-- An empty store (no accounts, no emails). -/
def store0 : Store := ⟨[], [], 1⟩

/-- A store with the single account `bob`. -/
def store1 : Store := ⟨[⟨"bob", "pw"⟩], [], 1⟩

/-- C4 (counterexample): with an empty recipient field (and non-empty subject
and body) no account with the recipient username exists, yet the handler
fails with the invalid-input notice, not with UnknownRecipient as the claim
states. -/
theorem handle_send_claim_cex :
    handle_send store0 "alice" "" "hi" "yo" none ⟨0, 0⟩ =
      Except.error SendError.invalidInput ∧
    SendError.invalidInput ≠ SendError.unknownRecipient :=
  ⟨rfl, by decide⟩

/-- C4 (amended): the send handler fails with InvalidInput when the stripped
recipient, subject or body is empty (this check runs first); it fails with
UnknownRecipient when the three fields are non-empty but no account with the
recipient username exists; in both failure cases it returns an error and no
message row is inserted (the store is left unchanged); otherwise it appends
exactly one row whose `is_spam` is computed by the classifier, atomically
with the row. -/
theorem handle_send_amended (st : Store)
    (sender recipientRaw subjectRaw bodyRaw : String)
    (attachment : Option String) (ts : TS) :
    (strip recipientRaw = "" ∨ strip subjectRaw = "" ∨ strip bodyRaw = "" →
      handle_send st sender recipientRaw subjectRaw bodyRaw attachment ts =
        Except.error SendError.invalidInput) ∧
    (strip recipientRaw ≠ "" → strip subjectRaw ≠ "" → strip bodyRaw ≠ "" →
      (∀ u ∈ st.users, u.username ≠ strip recipientRaw) →
      handle_send st sender recipientRaw subjectRaw bodyRaw attachment ts =
        Except.error SendError.unknownRecipient) ∧
    (strip recipientRaw ≠ "" → strip subjectRaw ≠ "" → strip bodyRaw ≠ "" →
      (∃ u ∈ st.users, u.username = strip recipientRaw) →
      handle_send st sender recipientRaw subjectRaw bodyRaw attachment ts =
        Except.ok (insertRow st
          (mkMessage st.nextId (strip recipientRaw) sender (strip subjectRaw)
            (strip bodyRaw) attachment ts
            (detect_spam (strip subjectRaw) (strip bodyRaw))))) := by
  refine ⟨?_, ?_, ?_⟩
  · intro h
    rw [handle_send]
    rcases h with h | h | h <;> simp [h]
  · intro h1 h2 h3 h4
    rw [handle_send]
    rw [if_neg, if_pos]
    · simp only [Bool.not_eq_true']
      rw [List.any_eq_false]
      intro u hu
      simpa using h4 u hu
    · simp [h1, h2, h3]
  · intro h1 h2 h3 h4
    rw [handle_send]
    rw [if_neg, if_neg]
    · rcases h4 with ⟨u, hu, hname⟩
      have hany : st.users.any (fun u => u.username == strip recipientRaw) = true :=
        List.any_eq_true.2 ⟨u, hu, by simp [hname]⟩
      simp [hany]
    · simp [h1, h2, h3]

/-- C4 (amended, witness): in the store with account `bob`, sending from
`alice` to `bob` with subject `"hi"` and body `"yo"` succeeds and appends the
row (which the classifier does not flag). -/
theorem handle_send_amended_witness :
    (strip "bob" ≠ "" ∧ strip "hi" ≠ "" ∧ strip "yo" ≠ "" ∧
      (∃ u ∈ store1.users, u.username = strip "bob")) ∧
    handle_send store1 "alice" "bob" "hi" "yo" none ⟨0, 0⟩ =
      Except.ok (insertRow store1
        (mkMessage store1.nextId (strip "bob") "alice" (strip "hi") (strip "yo")
          none ⟨0, 0⟩ (detect_spam (strip "hi") (strip "yo")))) :=
  ⟨⟨by decide, by decide, by decide, by decide⟩,
    (handle_send_amended store1 "alice" "bob" "hi" "yo" none ⟨0, 0⟩).2.2
      (by decide) (by decide) (by decide) (by decide)⟩

/-! ## Analytics (`EmailApp.open_analytics`, src/main.py 563-593) -/

/-- The `sender=? OR recipient=?` condition of the analytics queries. -/
def userMsg (user : String) (m : Message) : Bool :=
  m.sender == user || m.recipient == user

/-- Emails per day, last 30 days (src/main.py 563-574).  `todayD` is the
absolute day number of `datetime.now().date()`.  The code builds the dict
`{(start_date + timedelta(days=i)).isoformat(): 0 for i in range(30)}` (30
keys, ascending) and overwrites each key present among the grouped rows of
`SELECT SUBSTR(timestamp,1,10), COUNT(*) ... WHERE (sender=? OR recipient=?)
AND timestamp >= start_date GROUP BY dt` with its count; grouped dates
outside the dict (dates after today) are dropped by the `if dt in
date_counts` test.  Hence the entry for day `start + i` is the number of
filtered rows whose date is exactly `start + i`. -/
def dailyCounts (user : String) (todayD : Nat) (emails : List Message) :
    List (Nat × Nat) :=
  let start := todayD - 29
  let rows := emails.filter (fun m => userMsg user m && decide (start ≤ absDay m.ts))
  (List.range 30).map
    (fun i => (start + i, (rows.filter (fun m => absDay m.ts == start + i)).length))

/-- Spam per month, last 6 months (src/main.py 576-593).  `todayM` is the
absolute month index of today's date.  The loop `for i in range(5, -1, -1)`
with the `while month <= 0` borrow builds the keys of months `todayM - 5` up
to `todayM` (ascending) all initialised to 0; the SQL query counts spam rows
of the user grouped by `SUBSTR(timestamp,1,7)` with the cutoff
`today.replace(day=1) - timedelta(days=180)`; grouped months outside the six
dict keys are dropped by the `if ym in month_counts` test. -/
def monthlySpamCounts (user : String) (todayM : Nat) (emails : List Message) :
    List (Nat × Nat) :=
  let cutoff := monthStart todayM - 180
  let rows := emails.filter
    (fun m => userMsg user m && m.is_spam && decide (cutoff ≤ absDay m.ts))
  (List.range 6).map
    (fun i => (todayM - 5 + i, (rows.filter (fun m => m.ts.month == todayM - 5 + i)).length))

theorem sum_map_add (f g : Nat → Nat) :
    ∀ l : List Nat, (l.map (fun i => f i + g i)).sum = (l.map f).sum + (l.map g).sum := by
  intro l
  induction l with
  | nil => simp
  | cons a l ih => simp [ih]; omega

theorem sum_if_range (s d : Nat) :
    ∀ n, ((List.range n).map (fun i => if d = s + i then 1 else 0)).sum
      = if s ≤ d ∧ d < s + n then 1 else 0 := by
  intro n
  induction n with
  | zero =>
      rw [List.range_zero, List.map_nil, List.sum_nil, if_neg]
      omega
  | succ n ih =>
      rw [List.range_succ, List.map_append, List.sum_append, ih]
      by_cases h1 : s ≤ d ∧ d < s + n
      · rw [if_pos h1, if_pos (by omega)]
        simp only [List.map_cons, List.map_nil, List.sum_cons, List.sum_nil]
        rw [if_neg (by omega)]
        omega
      · rw [if_neg h1]
        simp only [List.map_cons, List.map_nil, List.sum_cons, List.sum_nil]
        by_cases h2 : d = s + n
        · rw [if_pos h2, if_pos (by omega)]
          omega
        · rw [if_neg h2, if_neg (by omega)]
          omega

theorem sum_counts (key : Message → Nat) (s n : Nat) :
    ∀ l : List Message,
      ((List.range n).map (fun i => (l.filter (fun m => key m == s + i)).length)).sum
        = (l.filter (fun m => decide (s ≤ key m) && decide (key m < s + n))).length := by
  intro l
  induction l with
  | nil => simp
  | cons m l ih =>
      have h1 : ∀ i : Nat, ((m :: l).filter (fun x => key x == s + i)).length
          = (if key m = s + i then 1 else 0)
            + (l.filter (fun x => key x == s + i)).length := by
        intro i
        by_cases h : key m = s + i
        · simp [List.filter_cons, h]
          omega
        · simp [List.filter_cons, h]
      have h2 : ((List.range n).map
            (fun i => ((m :: l).filter (fun x => key x == s + i)).length)).sum
          = ((List.range n).map (fun i => (if key m = s + i then 1 else 0)
            + (l.filter (fun x => key x == s + i)).length)).sum := by
        apply congrArg
        apply List.map_congr_left
        intro i _
        exact h1 i
      rw [h2, sum_map_add (fun i => if key m = s + i then 1 else 0)
        (fun i => (l.filter (fun x => key x == s + i)).length), sum_if_range, ih]
      by_cases h3 : s ≤ key m ∧ key m < s + n
      · rw [if_pos h3]
        have : (m :: l).filter
              (fun x => decide (s ≤ key x) && decide (key x < s + n))
            = m :: l.filter (fun x => decide (s ≤ key x) && decide (key x < s + n)) := by
          rw [List.filter_cons, if_pos (by simp [h3.1, h3.2])]
        rw [this, List.length_cons]
        omega
      · rw [if_neg h3]
        have : (m :: l).filter
              (fun x => decide (s ≤ key x) && decide (key x < s + n))
            = l.filter (fun x => decide (s ≤ key x) && decide (key x < s + n)) := by
          rw [List.filter_cons, if_neg]
          simp only [Bool.and_eq_true, decide_eq_true_eq]
          omega
        rw [this]
        omega

/-- C3: for every user, day and store, the daily-counts series has exactly 30
entries, one per day of the trailing 30-day window ending today inclusive,
keyed in strictly ascending date order (zero entries included for days with
no messages), and the entry values sum to the number of messages where the
user is sender or recipient and whose date lies inside the window. -/
theorem dailyCounts_spec (user : String) (todayD : Nat) (emails : List Message)
    (h : 29 ≤ todayD) :
    (dailyCounts user todayD emails).length = 30 ∧
    (dailyCounts user todayD emails).map Prod.fst
      = (List.range 30).map (fun i => todayD - 29 + i) ∧
    ((dailyCounts user todayD emails).map Prod.fst).Pairwise (fun a b => a < b) ∧
    ((dailyCounts user todayD emails).map Prod.snd).sum
      = (emails.filter (fun m => userMsg user m
          && decide (todayD - 29 ≤ absDay m.ts)
          && decide (absDay m.ts ≤ todayD))).length := by
  have hkeys : (dailyCounts user todayD emails).map Prod.fst
      = (List.range 30).map (fun i => todayD - 29 + i) := by
    rw [dailyCounts, List.map_map]
    rfl
  refine ⟨?_, hkeys, ?_, ?_⟩
  · rw [dailyCounts]
    simp
  · rw [hkeys]
    rw [List.pairwise_map]
    apply List.Pairwise.imp ?_ (List.pairwise_lt_range 30)
    intro a b hab
    omega
  · rw [dailyCounts, List.map_map]
    have : (Prod.snd ∘ fun i => (todayD - 29 + i,
        ((emails.filter (fun m => userMsg user m
          && decide (todayD - 29 ≤ absDay m.ts))).filter
            (fun m => absDay m.ts == todayD - 29 + i)).length))
        = fun i => ((emails.filter (fun m => userMsg user m
          && decide (todayD - 29 ≤ absDay m.ts))).filter
            (fun m => absDay m.ts == todayD - 29 + i)).length := rfl
    rw [this, sum_counts (fun m => absDay m.ts) (todayD - 29) 30, List.filter_filter]
    apply congrArg
    apply List.filter_congr
    intro m _
    rw [Bool.eq_iff_iff]
    simp only [Bool.and_eq_true, decide_eq_true_eq]
    constructor
    · rintro ⟨⟨hlo, hhi⟩, hu, _⟩
      exact ⟨⟨hu, hlo⟩, by omega⟩
    · rintro ⟨⟨hu, hlo⟩, hhi⟩
      exact ⟨⟨hlo, by omega⟩, hu, hlo⟩

/-- C3 (witness): at `todayD = 29` with one message of `alice` dated inside
the window, the series is well-formed and sums to 1. -/
theorem dailyCounts_spec_witness :
    29 ≤ 29 ∧
    (((dailyCounts "alice" 29 [demoMsg]).length = 30 ∧
      (dailyCounts "alice" 29 [demoMsg]).map Prod.fst
        = (List.range 30).map (fun i => 29 - 29 + i) ∧
      ((dailyCounts "alice" 29 [demoMsg]).map Prod.fst).Pairwise (fun a b => a < b) ∧
      ((dailyCounts "alice" 29 [demoMsg]).map Prod.snd).sum
        = ([demoMsg].filter (fun m => userMsg "alice" m
            && decide (29 - 29 ≤ absDay m.ts)
            && decide (absDay m.ts ≤ 29))).length)) :=
  ⟨by decide, dailyCounts_spec "alice" 29 [demoMsg] (by decide)⟩

theorem monthStart_sub_le (todayM : Nat) (k : Nat) (h5 : 5 ≤ todayM)
    (hk : todayM - 5 ≤ k) : monthStart todayM - 180 ≤ monthStart k := by
  have h1 : monthStart ((todayM - 5) + 5) ≤ monthStart (todayM - 5) + 31 * 5 :=
    monthStart_add_le (todayM - 5) 5
  have h2 : (todayM - 5) + 5 = todayM := by omega
  rw [h2] at h1
  have h3 : monthStart (todayM - 5) ≤ monthStart k := monthStart_mono hk
  omega

/-- C8: for every user, month and store, the monthly spam series is exactly
the six months `todayM - 5 .. todayM` in ascending order, with each entry
counting the spam messages (is_spam true, user is sender or recipient) whose
timestamp falls in that calendar month — months with no spam appearing as
zero entries.  (The SQL cutoff `first-of-month − 180 days` never excludes a
message of the six-month window, since five consecutive months span at most
155 days.) -/
theorem monthlySpamCounts_spec (user : String) (todayM : Nat)
    (emails : List Message) (h : 5 ≤ todayM) :
    (monthlySpamCounts user todayM emails).length = 6 ∧
    monthlySpamCounts user todayM emails
      = (List.range 6).map (fun i => (todayM - 5 + i,
          (emails.filter (fun m => userMsg user m && m.is_spam
            && m.ts.month == todayM - 5 + i)).length)) ∧
    ((monthlySpamCounts user todayM emails).map Prod.fst).Pairwise
      (fun a b => a < b) := by
  have hmain : monthlySpamCounts user todayM emails
      = (List.range 6).map (fun i => (todayM - 5 + i,
          (emails.filter (fun m => userMsg user m && m.is_spam
            && m.ts.month == todayM - 5 + i)).length)) := by
    rw [monthlySpamCounts]
    apply List.map_congr_left
    intro i _
    apply congrArg
    apply congrArg
    rw [List.filter_filter]
    apply List.filter_congr
    intro m _
    by_cases hm : m.ts.month = todayM - 5 + i
    · have hcut : monthStart todayM - 180 ≤ absDay m.ts := by
        have : monthStart todayM - 180 ≤ monthStart m.ts.month := by
          apply monthStart_sub_le todayM m.ts.month h
          omega
        have hd : monthStart m.ts.month ≤ absDay m.ts := Nat.le_add_right _ _
        omega
      simp [hm, hcut]
    · have hfalse : (m.ts.month == todayM - 5 + i) = false := by simp [hm]
      rw [hfalse]
      simp
  refine ⟨?_, hmain, ?_⟩
  · rw [monthlySpamCounts]
    simp
  · rw [hmain, List.map_map]
    have : (Prod.fst ∘ fun i => (todayM - 5 + i,
        (emails.filter (fun m => userMsg user m && m.is_spam
          && m.ts.month == todayM - 5 + i)).length))
        = fun i => todayM - 5 + i := rfl
    rw [this, List.pairwise_map]
    apply List.Pairwise.imp ?_ (List.pairwise_lt_range 6)
    intro a b hab
    omega

/-- A concrete spam message of `alice` in month 3. -/
def demoSpam : Message :=
  { id := 2, recipient := "bob", sender := "alice", subject := "prize",
    body := "claim now", attachment := none, ts := ⟨3, 0⟩, is_spam := true }

/-- C8 (witness): at `todayM = 5` with one spam message of `alice` in month 3,
the series is the six months 0..5 with the month-3 count. -/
theorem monthlySpamCounts_spec_witness :
    5 ≤ 5 ∧
    ((monthlySpamCounts "alice" 5 [demoSpam]).length = 6 ∧
      monthlySpamCounts "alice" 5 [demoSpam]
        = (List.range 6).map (fun i => (5 - 5 + i,
            ([demoSpam].filter (fun m => userMsg "alice" m && m.is_spam
              && m.ts.month == 5 - 5 + i)).length)) ∧
      ((monthlySpamCounts "alice" 5 [demoSpam]).map Prod.fst).Pairwise
        (fun a b => a < b)) :=
  ⟨by decide, monthlySpamCounts_spec "alice" 5 [demoSpam] (by decide)⟩

/-! ## Search and sort (`EmailApp.setup_mail_tab.refresh`, src/main.py 394-419)

The fetched rows put the "other party" at index 1: the sender for the Inbox
and Spam tabs, the recipient for the Sent tab.  The search keyword is
lower-cased and matched as a substring against the lower-cased other party,
subject and body; an empty keyword skips filtering.  `list.sort(key=...)` is
Python's stable sort with a precomputed key; the keys `(x[2] or "").lower()`
and `(x[1] or "").lower()` are the lower-cased subject and other party
(rows inserted by this app never have NULL text fields, so `or ""` only
maps the empty string to itself). -/

/-- The "other party" column of the folder query (`e[1]`). -/
def personOf (inbox : Bool) (m : Message) : String :=
  if inbox then m.sender else m.recipient

/-- Sort key of the Subject sort: `(x[2] or "").lower()`. -/
def subjectKey (m : Message) : String := lower m.subject

/-- Sort key of the Sender/Recipient (Contact) sort: `(x[1] or "").lower()`. -/
def contactKey (inbox : Bool) (m : Message) : String := lower (personOf inbox m)

/-- Python's stable `list.sort(key=...)` with a string key, embedded as the
stable `List.mergeSort` ordered by the key. -/
def sortByKey (key : Message → String) (emails : List Message) : List Message :=
  emails.mergeSort (fun a b => decide (key a ≤ key b))

/-- The Subject sort (src/main.py 408-409). -/
def sortBySubject (emails : List Message) : List Message := sortByKey subjectKey emails

/-- The Sender/Recipient sort (src/main.py 410-411). -/
def sortByContact (inbox : Bool) (emails : List Message) : List Message :=
  sortByKey (contactKey inbox) emails

/-- The keyword filter (src/main.py 394-405): keep a row if the lower-cased
keyword occurs in the lower-cased other party, subject, or body; an empty
keyword keeps everything. -/
def searchFilter (inbox : Bool) (kw : String) (emails : List Message) :
    List Message :=
  if lower kw == "" then emails
  else emails.filter (fun e => strContains (lower (personOf inbox e)) (lower kw)
    || strContains (lower e.subject) (lower kw)
    || strContains (lower e.body) (lower kw))

theorem keyLE_trans (key : Message → String) (a b c : Message)
    (h1 : decide (key a ≤ key b) = true) (h2 : decide (key b ≤ key c) = true) :
    decide (key a ≤ key c) = true := by
  simp only [decide_eq_true_eq] at h1 h2 ⊢
  exact le_trans h1 h2

theorem keyLE_total (key : Message → String) (a b : Message) :
    (decide (key a ≤ key b) || decide (key b ≤ key a)) = true := by
  simp only [Bool.or_eq_true, decide_eq_true_eq]
  exact le_total _ _

theorem sortByKey_perm (key : Message → String) (l : List Message) :
    (sortByKey key l).Perm l :=
  List.mergeSort_perm l _

theorem sortByKey_sorted (key : Message → String) (l : List Message) :
    (sortByKey key l).Pairwise (fun a b => key a ≤ key b) := by
  have h := List.sorted_mergeSort (keyLE_trans key) (keyLE_total key) l
  exact h.imp (fun hab => by simpa using hab)

theorem sortByKey_stable (key : Message → String) (l : List Message) (k : String) :
    (sortByKey key l).filter (fun m => key m == k)
      = l.filter (fun m => key m == k) := by
  have hsub : (l.filter (fun m => key m == k)).Sublist l := List.filter_sublist l
  have hpw : (l.filter (fun m => key m == k)).Pairwise
      (fun a b => decide (key a ≤ key b) = true) := by
    apply List.pairwise_of_forall_mem_list
    intro a ha b hb
    have ha2 := (List.mem_filter.1 ha).2
    have hb2 := (List.mem_filter.1 hb).2
    simp only [beq_iff_eq] at ha2 hb2
    simp [ha2, hb2]
  have hs : (l.filter (fun m => key m == k)).Sublist (sortByKey key l) :=
    List.sublist_mergeSort (keyLE_trans key) (keyLE_total key) hpw hsub
  have hself : (l.filter (fun m => key m == k)).filter (fun m => key m == k)
      = l.filter (fun m => key m == k) := by
    apply List.filter_eq_self.2
    intro a ha
    exact (List.mem_filter.1 ha).2
  have hs2 : (l.filter (fun m => key m == k)).Sublist
      ((sortByKey key l).filter (fun m => key m == k)) := by
    have := List.Sublist.filter (fun m => key m == k) hs
    rwa [hself] at this
  have hperm : ((sortByKey key l).filter (fun m => key m == k)).Perm
      (l.filter (fun m => key m == k)) :=
    (sortByKey_perm key l).filter _
  exact (hs2.eq_of_length hperm.length_eq.symm).symm

theorem empty_le_string (s : String) : ("" : String) ≤ s := by
  rw [String.le_iff_toList_le]
  exact List.nil_le

/-- C6: on every folder view and store state, the Subject sort and the
Contact sort of the keyword-filtered rows are permutations of the filtered
rows (filtering happens before sorting and nothing else changes), are sorted
ascending by the lower-cased key — the empty key being minimal, an empty
field sorts first — and are stable: for every key value, the rows carrying
that key appear in the same order as the store returned them. -/
theorem mail_sort_spec (rows : List Message) (inbox : Bool) (kw : String) :
    (sortBySubject (searchFilter inbox kw rows)).Perm (searchFilter inbox kw rows) ∧
    (sortBySubject (searchFilter inbox kw rows)).Pairwise
      (fun a b => subjectKey a ≤ subjectKey b) ∧
    (∀ k : String, (sortBySubject (searchFilter inbox kw rows)).filter
        (fun m => subjectKey m == k)
      = (searchFilter inbox kw rows).filter (fun m => subjectKey m == k)) ∧
    (sortByContact inbox (searchFilter inbox kw rows)).Perm
      (searchFilter inbox kw rows) ∧
    (sortByContact inbox (searchFilter inbox kw rows)).Pairwise
      (fun a b => contactKey inbox a ≤ contactKey inbox b) ∧
    (∀ k : String, (sortByContact inbox (searchFilter inbox kw rows)).filter
        (fun m => contactKey inbox m == k)
      = (searchFilter inbox kw rows).filter (fun m => contactKey inbox m == k)) ∧
    (∀ m : Message, ("" : String) ≤ subjectKey m ∧ ("" : String) ≤ contactKey inbox m) :=
  ⟨sortByKey_perm subjectKey _,
   sortByKey_sorted subjectKey _,
   fun k => sortByKey_stable subjectKey _ k,
   sortByKey_perm (contactKey inbox) _,
   sortByKey_sorted (contactKey inbox) _,
   fun k => sortByKey_stable (contactKey inbox) _ k,
   fun _ => ⟨empty_le_string _, empty_le_string _⟩⟩

/-! ## Attachments: base64 round trip

`EmailApp.send_email.choose_file` (src/main.py 289-296) stores
`base64.b64encode(data).decode("utf-8")`; `save_attachment` (452-457) writes
`base64.b64decode(data)` back verbatim.  Python's `base64` module implements
standard RFC 4648 base64 with the `=` padding; it is embedded below over
byte sequences represented as lists of naturals below 256. -/

/-- The standard base64 alphabet (RFC 4648), as used by `base64.b64encode`. -/
def b64Alphabet : List Char :=
  "ABCDEFGHIJKLMNOPQRSTUVWXYZabcdefghijklmnopqrstuvwxyz0123456789+/".data

/-- Alphabet character of a 6-bit value. -/
def b64EncChar (n : Nat) : Char := b64Alphabet.getD n 'A'

/-- 6-bit value of an alphabet character. -/
def b64DecVal (c : Char) : Nat := b64Alphabet.indexOf c

/-- `base64.b64encode`: encode three bytes as four alphabet characters; a
final group of one or two bytes is padded with `=`. -/
def b64encode : List Nat → List Char
  | [] => []
  | [a] => [b64EncChar (a / 4), b64EncChar (a % 4 * 16), '=', '=']
  | [a, b] => [b64EncChar (a / 4), b64EncChar (a % 4 * 16 + b / 16),
      b64EncChar (b % 16 * 4), '=']
  | a :: b :: c :: rest =>
      b64EncChar (a / 4) :: b64EncChar (a % 4 * 16 + b / 16)
        :: b64EncChar (b % 16 * 4 + c / 64) :: b64EncChar (c % 64)
        :: b64encode rest

/-- `base64.b64decode`: decode each four-character group into three bytes,
the final group into two or one bytes according to its `=` padding. -/
def b64decode : List Char → List Nat
  | w :: x :: y :: z :: rest =>
      if z = '=' then
        if y = '=' then [b64DecVal w * 4 + b64DecVal x / 16]
        else [b64DecVal w * 4 + b64DecVal x / 16,
              b64DecVal x % 16 * 16 + b64DecVal y / 4]
      else (b64DecVal w * 4 + b64DecVal x / 16)
        :: (b64DecVal x % 16 * 16 + b64DecVal y / 4)
        :: (b64DecVal y % 4 * 64 + b64DecVal z)
        :: b64decode rest
  | _ => []

theorem b64_dec_enc : ∀ n, n < 64 → b64DecVal (b64EncChar n) = n := by decide

theorem b64_enc_ne_eq : ∀ n, n < 64 → b64EncChar n ≠ '=' := by decide

/-- C9: decoding the base64 encoding of any byte sequence (each byte below
256), including the empty sequence, yields exactly the original bytes. -/
theorem b64_roundtrip : ∀ bytes : List Nat, (∀ b ∈ bytes, b < 256) →
    b64decode (b64encode bytes) = bytes := by
  intro bytes
  induction bytes using b64encode.induct with
  | case1 =>
      intro _
      rfl
  | case2 a =>
      intro h
      have ha : a < 256 := h a (by simp)
      simp only [b64encode, b64decode, if_pos rfl]
      rw [b64_dec_enc (a / 4) (by omega), b64_dec_enc (a % 4 * 16) (by omega)]
      have : a / 4 * 4 + a % 4 * 16 / 16 = a := by omega
      rw [this]
      simp
  | case3 a b =>
      intro h
      have ha : a < 256 := h a (by simp)
      have hb : b < 256 := h b (by simp)
      simp only [b64encode, b64decode, if_pos rfl]
      rw [if_neg (b64_enc_ne_eq (b % 16 * 4) (by omega))]
      rw [b64_dec_enc (a / 4) (by omega),
        b64_dec_enc (a % 4 * 16 + b / 16) (by omega),
        b64_dec_enc (b % 16 * 4) (by omega)]
      have h1 : a / 4 * 4 + (a % 4 * 16 + b / 16) / 16 = a := by omega
      have h2 : (a % 4 * 16 + b / 16) % 16 * 16 + b % 16 * 4 / 4 = b := by omega
      rw [h1, h2]
      simp
  | case4 a b c rest ih =>
      intro h
      have ha : a < 256 := h a (by simp)
      have hb : b < 256 := h b (by simp)
      have hc : c < 256 := h c (by simp)
      simp only [b64encode, b64decode]
      rw [if_neg (b64_enc_ne_eq (c % 64) (by omega))]
      rw [b64_dec_enc (a / 4) (by omega),
        b64_dec_enc (a % 4 * 16 + b / 16) (by omega),
        b64_dec_enc (b % 16 * 4 + c / 64) (by omega),
        b64_dec_enc (c % 64) (by omega)]
      have h1 : a / 4 * 4 + (a % 4 * 16 + b / 16) / 16 = a := by omega
      have h2 : (a % 4 * 16 + b / 16) % 16 * 16 + (b % 16 * 4 + c / 64) / 4 = b := by
        omega
      have h3 : (b % 16 * 4 + c / 64) % 4 * 64 + c % 64 = c := by omega
      rw [h1, h2, h3, ih (fun x hx => h x (by simp [hx]))]

/-- C9 (witness): a concrete five-byte sequence (exercising both the full
three-byte groups and the padded final group) round-trips. -/
theorem b64_roundtrip_witness :
    (∀ b ∈ [72, 105, 33, 255, 0], b < 256) ∧
    b64decode (b64encode [72, 105, 33, 255, 0]) = [72, 105, 33, 255, 0] :=
  ⟨by decide, b64_roundtrip [72, 105, 33, 255, 0] (by decide)⟩

end BharatMail
